import Mathlib

/-!
Verification development for the polars-ruby conversion layer.

This file gives a shallow embedding of the four source files of the
repository fragment:

  - ext/polars/src/conversion/anyvalue.rs  (value conversion, both ways)
  - ext/polars/src/error.rs                (error translation)
  - ext/polars/src/interop/numo/to_numo_series.rs (numeric-array export)
  - ext/polars/src/expr/array.rs           (pass-through facade, no logic)

Machine integers are modelled as Int with explicit wrapping or checked
bounds where the Rust code uses i32/i64/i128 arithmetic.  Host (Ruby)
values and engine (polars) tagged values are modelled as inductive types.
Engine routines that live outside this repository (supertype resolution,
series construction, temporal helpers) are modelled from the spec and
marked as such in their doc comments.
-/

namespace PolarsRb

/-! ## Machine integer helpers -/

def i64Max : Int := 9223372036854775807

def i64Min : Int := -9223372036854775808

def i128Max : Int := 170141183460469231731687303715884105727

def i128Min : Int := -170141183460469231731687303715884105728

/-- Two-complement wrap of an integer into the i32 range, as Rust release
mode arithmetic does on overflow. -/
def wrapI32 (x : Int) : Int :=
  (x + 2147483648) % 4294967296 - 2147483648

/-- Two-complement wrap of an integer into the i64 range. -/
def wrapI64 (x : Int) : Int :=
  (x + 9223372036854775808) % 18446744073709551616 - 9223372036854775808

/-- Cast of an i32 value to the 64-bit usize, as Rust as-casts do:
sign-extend and reinterpret, so a negative input lands near 2 to the 64. -/
def i32AsUsize (v : Int) : Nat := (v % 18446744073709551616).toNat

def inI64 (x : Int) : Prop := i64Min ≤ x ∧ x ≤ i64Max

instance (x : Int) : Decidable (inI64 x) := by unfold inI64; infer_instance

/-- Checked ten-to-the-power for i128, as 10_i128.checked_pow(e) in
anyvalue.rs line 176: fails when the power itself overflows i128. -/
def checkedPow10 (e : Nat) : Option Int :=
  if (10 : Int) ^ e ≤ i128Max then some ((10 : Int) ^ e) else none

/-- Checked i128 multiplication, as checked_mul in anyvalue.rs line 177. -/
def checkedMulI128 (a b : Int) : Option Int :=
  if i128Min ≤ a * b ∧ a * b ≤ i128Max then some (a * b) else none

/-- Checked i128 negation, as checked_neg in anyvalue.rs line 158. -/
def checkedNegI128 (a : Int) : Option Int :=
  if i128Min ≤ -a ∧ -a ≤ i128Max then some (-a) else none

/-! ## Digit-string parsing, as i128::from_str used by digits.parse in
anyvalue.rs line 172.  The Rust parser accepts an optional sign followed
by one or more ascii digits and fails on any other character or on a
value outside the i128 range. -/

def digitsToNat : List Char → Nat → Nat
  | [], acc => acc
  | c :: cs, acc => digitsToNat cs (acc * 10 + (c.toNat - 48))

def parseDigits (cs : List Char) : Option Nat :=
  if cs.isEmpty then none
  else if cs.all (fun c => c.isDigit) then some (digitsToNat cs 0) else none

def parseI128Chars : List Char → Option Int
  | [] => none
  | c :: cs =>
      if c = '+' then
        (parseDigits cs).bind fun n =>
          if (n : Int) ≤ i128Max then some ((n : Int)) else none
      else if c = '-' then
        (parseDigits cs).bind fun n =>
          if i128Min ≤ -(n : Int) then some (-(n : Int)) else none
      else
        (parseDigits (c :: cs)).bind fun n =>
          if (n : Int) ≤ i128Max then some ((n : Int)) else none

def parseI128 (s : String) : Option Int := parseI128Chars s.data

/-- Embedding of abs_decimal_from_digits, anyvalue.rs lines 170 to 186.
The exponent subtraction is i32 arithmetic (wrapping in release builds),
the parse is i128, and the positive-exponent branch multiplies through
checked power and checked multiplication, failing on overflow.  The scale
of the non-positive branch is the i32 negation (which wraps at the i32
minimum in release builds) cast to the 64-bit usize by sign extension. -/
def absDecimalFromDigits (digits : String) (exp : Int) : Option (Int × Nat) :=
  let exp1 : Int := wrapI32 (exp - wrapI32 (digits.length : Int))
  match parseI128 digits with
  | some v =>
      if 0 < exp1 then
        match (checkedPow10 exp1.toNat).bind (fun factor => checkedMulI128 v factor) with
        | some v2 => some (v2, 0)
        | none => none
      else
        some (v, i32AsUsize (wrapI32 (-exp1)))
  | none => none

/-! ## UTF-8 validity over byte lists, as Rust std str validation used by
magnus RString::to_string. -/

def isUtf8Cont (b : Nat) : Bool := 128 ≤ b && b ≤ 191

def validUtf8 : List Nat → Bool
  | [] => true
  | b :: rest =>
    if b ≤ 127 then validUtf8 rest
    else if 194 ≤ b && b ≤ 223 then
      match rest with
      | c1 :: r => isUtf8Cont c1 && validUtf8 r
      | _ => false
    else if b = 224 then
      match rest with
      | c1 :: c2 :: r => (160 ≤ c1 && c1 ≤ 191) && isUtf8Cont c2 && validUtf8 r
      | _ => false
    else if (225 ≤ b && b ≤ 236) || b = 238 || b = 239 then
      match rest with
      | c1 :: c2 :: r => isUtf8Cont c1 && isUtf8Cont c2 && validUtf8 r
      | _ => false
    else if b = 237 then
      match rest with
      | c1 :: c2 :: r => (128 ≤ c1 && c1 ≤ 159) && isUtf8Cont c2 && validUtf8 r
      | _ => false
    else if b = 240 then
      match rest with
      | c1 :: c2 :: c3 :: r =>
          (144 ≤ c1 && c1 ≤ 191) && isUtf8Cont c2 && isUtf8Cont c3 && validUtf8 r
      | _ => false
    else if 241 ≤ b && b ≤ 243 then
      match rest with
      | c1 :: c2 :: c3 :: r =>
          isUtf8Cont c1 && isUtf8Cont c2 && isUtf8Cont c3 && validUtf8 r
      | _ => false
    else if b = 244 then
      match rest with
      | c1 :: c2 :: c3 :: r =>
          (128 ≤ c1 && c1 ≤ 143) && isUtf8Cont c2 && isUtf8Cont c3 && validUtf8 r
      | _ => false
    else false

/-! ## Core enumerations -/

/-- Ruby string encodings relevant to the conversion layer: the code only
tests whether the declared encoding index is UTF-8 (anyvalue.rs line 82);
ASCII-8BIT is the encoding produced by RString::from_slice. -/
inductive REnc where
  | utf8
  | binary
  | usascii
  deriving DecidableEq

inductive TimeUnitM where
  | ns
  | us
  | ms
  deriving DecidableEq

def TimeUnitM.toAscii : TimeUnitM → String
  | .ns => "ns"
  | .us => "us"
  | .ms => "ms"

/-- A 32-bit float value, modelled abstractly: the conversion layer never
computes with floats, it only passes them through (ofBits), casts an
integer into one exactly at the model level (ofInt), or substitutes NaN
for a missing value in the numeric-array export. -/
inductive F32 where
  | ofBits (b : Nat)
  | ofInt (n : Int)
  | nan
  deriving DecidableEq

/-- A 64-bit float value, same modelling as F32; ofF32 records the exact
widening of a 32-bit float. -/
inductive F64 where
  | ofBits (b : Nat)
  | ofInt (n : Int)
  | ofF32 (x : F32)
  | nan
  deriving DecidableEq

/-! ## Engine data types (polars DataType), as far as the four source
files exercise them. -/

inductive DType where
  | null
  | boolean
  | int8
  | int16
  | int32
  | int64
  | uint8
  | uint16
  | uint32
  | uint64
  | float32
  | float64
  | string
  | binary
  | date
  | datetime (u : TimeUnitM) (tz : Option (List Nat))
  | duration (u : TimeUnitM)
  | time
  | decimalD (scale : Nat)
  | categoricalD
  | enumD
  | listD (inner : DType)
  | arrayD (inner : DType) (width : Nat)
  | structD (fields : List (List Nat × DType))
  | object

mutual

/-- Structural equality test on engine data types (nested through struct
field lists, so the instance cannot be derived). -/
def DType.beq : DType → DType → Bool
  | .null, .null => true
  | .boolean, .boolean => true
  | .int8, .int8 => true
  | .int16, .int16 => true
  | .int32, .int32 => true
  | .int64, .int64 => true
  | .uint8, .uint8 => true
  | .uint16, .uint16 => true
  | .uint32, .uint32 => true
  | .uint64, .uint64 => true
  | .float32, .float32 => true
  | .float64, .float64 => true
  | .string, .string => true
  | .binary, .binary => true
  | .date, .date => true
  | .datetime u1 t1, .datetime u2 t2 => u1 == u2 && t1 == t2
  | .duration u1, .duration u2 => u1 == u2
  | .time, .time => true
  | .decimalD s1, .decimalD s2 => s1 == s2
  | .categoricalD, .categoricalD => true
  | .enumD, .enumD => true
  | .listD a, .listD b => DType.beq a b
  | .arrayD a w1, .arrayD b w2 => DType.beq a b && w1 == w2
  | .structD f1, .structD f2 => DType.beqFields f1 f2
  | .object, .object => true
  | _, _ => false

def DType.beqFields : List (List Nat × DType) → List (List Nat × DType) → Bool
  | [], [] => true
  | (n1, d1) :: r1, (n2, d2) :: r2 =>
      n1 == n2 && DType.beq d1 d2 && DType.beqFields r1 r2
  | _, _ => false

end

/-! ## Error types -/

/-- Internal engine error taxonomy (polars PolarsError), with the message
payload each variant carries.  The textual form mirrors the display
templates of the engine crate. -/
inductive PolarsErrorM where
  | columnNotFound (msg : String)
  | computeError (msg : String)
  | duplicate (msg : String)
  | invalidOperation (msg : String)
  | ioErr (msg : String)
  | noData (msg : String)
  | outOfBounds (msg : String)
  | schemaMismatch (msg : String)
  | shapeMismatch (msg : String)
  | stringCacheMismatch (msg : String)
  deriving DecidableEq

/-- Textual form of an engine error, as PolarsError Display. -/
def PolarsErrorM.display : PolarsErrorM → String
  | .columnNotFound m => "not found: " ++ m
  | .computeError m => m
  | .duplicate m => "duplicate: " ++ m
  | .invalidOperation m => "invalid operation: " ++ m
  | .ioErr m => m
  | .noData m => "no data: " ++ m
  | .outOfBounds m => "out of bounds: " ++ m
  | .schemaMismatch m => "data types do not match: " ++ m
  | .shapeMismatch m => "lengths do not match: " ++ m
  | .stringCacheMismatch m => "string caches do not match: " ++ m

/-- Host-visible exception, identified by its Ruby class and message.
compute and invalidOp are the domain-specific Polars exception classes,
generic is the Polars::Error base class, typeErr, argErr and rangeErr are
the host built-in exception classes, encodingErr models a magnus string
conversion failure, and fatal models a Rust panic crossing the boundary. -/
inductive RbErr where
  | compute (msg : String)
  | invalidOp (msg : String)
  | generic (msg : String)
  | typeErr (msg : String)
  | argErr (msg : String)
  | rangeErr (msg : String)
  | encodingErr (msg : String)
  | fatal (msg : String)
  deriving DecidableEq

/-- Embedding of RbPolarsErr::from, error.rs lines 11 to 17: compute
failures map to the compute exception with the inner message, invalid
operation failures to the invalid-operation exception with the inner
message, and everything else to the generic library error carrying the
textual form of the engine error. -/
def rbPolarsErrFrom : PolarsErrorM → RbErr
  | .computeError m => .compute m
  | .invalidOperation m => .invalidOp m
  | e => .generic e.display

/-- Embedding of RbPolarsErr::other, error.rs lines 23 to 25. -/
def rbPolarsErrOther (message : String) : RbErr := .generic message

/-! ## Host (Ruby) values

A host value is classified by the inbound converter through a fixed
sequence of class checks (anyvalue.rs lines 75 to 166).  Each constructor
below models one observable shape of a Ruby object:

  - bool, int, float, str, nil, hash, array are the builtin classes;
  - timeInst models an instance answering true to is_a?(Time), including
    ActiveSupport::TimeWithZone, carrying its to_i and nsec accessors;
  - datetimeInst models a DateTime instance (which, in Ruby, is also a
    Date, so it answers true to the Date kind check as well);
  - dateInst models a plain Date instance, carrying the whole seconds
    since epoch that the chain to_datetime.to_time.to_i produces;
  - bigdecimal models a BigDecimal through the result of its split
    method: sign, significant digit string, and decimal exponent;
  - durationObj and timeOfDayObj model the host values produced by the
    external duration and time-of-day construction helpers;
  - hostObj models any other host object, identified by an id. -/
inductive RValue where
  | bool (b : Bool)
  | int (n : Int)
  | float (x : F64)
  | str (bytes : List Nat) (enc : REnc)
  | nil
  | hash (entries : List (RValue × RValue))
  | array (xs : List RValue)
  | timeInst (sec : Int) (nsec : Int)
  | datetimeInst (sec : Int) (nsec : Int)
  | dateInst (sec : Int)
  | bigdecimal (sign : Int) (digits : String) (exp : Int)
  | durationObj (ticks : Int) (u : TimeUnitM)
  | timeOfDayObj (ticks : Int)
  | hostObj (id : Nat)

/-- Payload carried by an engine object value: either the ObjectValue box
the binding itself registered (wrapping one host value), or some other
foreign payload on which the downcast of anyvalue.rs lines 57 and 61
fails. -/
inductive OPayload where
  | objectValue (v : RValue)
  | foreignBox (tag : Nat)

/-- Engine tagged scalar value (polars AnyValue), with the variants the
source file matches on (anyvalue.rs lines 16 to 68).  A series is
represented by its data type together with its cell values, so the List
and Array variants carry both. -/
inductive AnyValue where
  | uint8 (n : Int)
  | uint16 (n : Int)
  | uint32 (n : Int)
  | uint64 (n : Int)
  | int8 (n : Int)
  | int16 (n : Int)
  | int32 (n : Int)
  | int64 (n : Int)
  | float32 (x : F32)
  | float64 (x : F64)
  | nullAV
  | booleanAV (b : Bool)
  | strBorrowed (bytes : List Nat)
  | strOwned (bytes : List Nat)
  | categorical (idx : Nat) (rev : List (List Nat)) (arr : Option (List (List Nat)))
  | enumAV (idx : Nat) (rev : List (List Nat)) (arr : Option (List (List Nat)))
  | dateAV (days : Int)
  | datetimeAV (v : Int) (u : TimeUnitM) (tz : Option (List Nat))
  | durationAV (v : Int) (u : TimeUnitM)
  | timeAV (v : Int)
  | arrayAV (dtype : DType) (values : List AnyValue)
  | listAV (dtype : DType) (values : List AnyValue)
  | structAV (values : List AnyValue) (fields : List (List Nat × DType))
  | structOwned (values : List AnyValue) (fields : List (List Nat × DType))
  | objectAV (payload : OPayload)
  | objectOwned (payload : OPayload)
  | binaryAV (bytes : List Nat)
  | binaryOwned (bytes : List Nat)
  | decimalAV (v : Int) (scale : Nat)

/-- Engine data type of a tagged value, as DataType::from(&AnyValue) used
at anyvalue.rs line 104. -/
def avDtype : AnyValue → DType
  | .uint8 _ => .uint8
  | .uint16 _ => .uint16
  | .uint32 _ => .uint32
  | .uint64 _ => .uint64
  | .int8 _ => .int8
  | .int16 _ => .int16
  | .int32 _ => .int32
  | .int64 _ => .int64
  | .float32 _ => .float32
  | .float64 _ => .float64
  | .nullAV => .null
  | .booleanAV _ => .boolean
  | .strBorrowed _ => .string
  | .strOwned _ => .string
  | .categorical _ _ _ => .categoricalD
  | .enumAV _ _ _ => .enumD
  | .dateAV _ => .date
  | .datetimeAV _ u tz => .datetime u tz
  | .durationAV _ u => .duration u
  | .timeAV _ => .time
  | .arrayAV d vs => .arrayD d vs.length
  | .listAV d _ => .listD d
  | .structAV _ f => .structD f
  | .structOwned _ f => .structD f
  | .objectAV _ => .object
  | .objectOwned _ => .object
  | .binaryAV _ => .binary
  | .binaryOwned _ => .binary
  | .decimalAV _ s => .decimalD s

/-! ## Host-side helper operations -/

/-- Conversion of a host value to a Rust String, as the magnus
String::try_convert call on hash keys (anyvalue.rs line 102): succeeds
exactly on host strings whose declared encoding is UTF-8 and whose bytes
are valid UTF-8; a UTF-8 string with invalid bytes fails with an encoding
error and a non-string value fails with the host type error. -/
def rubyToStr : RValue → Except RbErr (List Nat)
  | .str bytes .utf8 =>
      if validUtf8 bytes then .ok bytes
      else .error (.encodingErr "invalid byte sequence in UTF-8")
  | .str _ _ => .error (.encodingErr "encoding is not UTF-8 compatible")
  | _ => .error (.typeErr "no implicit conversion into String")

/-- Textual representation of a host value, standing for the Ruby inspect
output interpolated into the unsupported-type message (anyvalue.rs line
163).  The exact rendering is host-side and only its presence matters; the
model renders each shape distinctly. -/
def rubyInspect : RValue → String
  | .bool true => "true"
  | .bool false => "false"
  | .int n => toString n
  | .float _ => "#<Float>"
  | .str _ _ => "#<String>"
  | .nil => "nil"
  | .hash _ => "#<Hash>"
  | .array _ => "#<Array>"
  | .timeInst _ _ => "#<Time>"
  | .datetimeInst _ _ => "#<DateTime>"
  | .dateInst _ => "#<Date>"
  | .bigdecimal _ _ _ => "#<BigDecimal>"
  | .durationObj _ _ => "#<Duration>"
  | .timeOfDayObj _ => "#<TimeOfDay>"
  | .hostObj id => "#<Object:" ++ toString id ++ ">"

/-! ## Engine collaborator models

The supertype resolver, series construction and the temporal and decimal
construction helpers live outside the four source files.  They are
modelled from the spec, as external collaborator contracts. -/

/-- Modelled from the spec: the join of the engine type lattice on the
pairs this layer can produce.  Null is the bottom element, equal types
join to themselves, and the int64/float64 pair joins to float64 (the
mixed int/float sequence case named in the spec); other mixed pairs have
no common supertype in the model. -/
def dtypeJoin (a b : DType) : Option DType :=
  match a, b with
  | .null, d => some d
  | d, .null => some d
  | .int64, .float64 => some .float64
  | .float64, .int64 => some .float64
  | d, d' => if DType.beq d d' then some d else none

/-- Modelled from the spec: any_values_to_supertype_and_n_dtypes
(anyvalue.rs line 124), the engine resolver returning the minimal common
logical type of the given values together with the number of distinct
value types seen, or an engine error when no common supertype exists. -/
def anyValuesToSupertypeAndN (avs : List AnyValue) :
    Except PolarsErrorM (DType × Nat) :=
  let dtypes := avs.map avDtype
  let distinct := dtypes.foldl
    (fun acc d => if acc.any (fun d' => DType.beq d d') then acc else acc ++ [d]) []
  match dtypes.foldl (fun acc d => acc.bind (fun s => dtypeJoin s d)) (some .null) with
  | some st => .ok (st, distinct.length)
  | none => .error (.schemaMismatch "failed to determine supertype of values")

/-- Modelled from the spec: the engine cast of one cell value to a target
data type, used during homogeneous column construction.  Null casts to
null in any type, a value already of the target type is unchanged, and an
int64 casts into a float64 exactly at the model level; other casts are
outside the model and fail. -/
def castAV (d : DType) (av : AnyValue) : Except PolarsErrorM AnyValue :=
  match av, d with
  | .nullAV, _ => .ok .nullAV
  | .int64 n, .float64 => .ok (.float64 (.ofInt n))
  | _, _ =>
      if DType.beq (avDtype av) d then .ok av
      else .error (.computeError "cannot cast value to the supertype")

/-- Modelled from the spec: Series::from_any_values_and_dtype
(anyvalue.rs line 132), building a homogeneous column by casting every
cell value to the given data type; the column keeps that data type. -/
def seriesFromAnyValuesAndDtype (avs : List AnyValue) (d : DType) :
    Except PolarsErrorM (List AnyValue) :=
  avs.mapM (castAV d)

/-- Modelled from the spec: the external helper construct_date called as
_to_ruby_date (anyvalue.rs line 39), producing a host date value whose
seconds-since-epoch accessor chain yields the day offset times 86400. -/
def toRubyDate (days : Int) : RValue := .dateInst (days * 86400)

/-- Ticks of a temporal value split into whole seconds, truncating toward
zero as the host helper arithmetic does. -/
def ticksToSec (v : Int) (u : TimeUnitM) : Int :=
  match u with
  | .ns => Int.tdiv v 1000000000
  | .us => Int.tdiv v 1000000
  | .ms => Int.tdiv v 1000

def ticksToNsec (v : Int) (u : TimeUnitM) : Int :=
  match u with
  | .ns => v - ticksToSec v .ns * 1000000000
  | .us => (v - ticksToSec v .us * 1000000) * 1000
  | .ms => (v - ticksToSec v .ms * 1000) * 1000000

/-- Modelled from the spec: the external helper construct_datetime called
as _to_ruby_datetime (anyvalue.rs line 43), producing a host time value
from raw ticks and unit (the zone, when present, does not change the
instant the model records). -/
def toRubyDatetime (v : Int) (u : TimeUnitM) (_tz : Option (List Nat)) : RValue :=
  .timeInst (ticksToSec v u) (ticksToNsec v u)

/-- Modelled from the spec: the external helper construct_duration called
as _to_ruby_duration (anyvalue.rs line 49). -/
def toRubyDuration (v : Int) (u : TimeUnitM) : RValue := .durationObj v u

/-- Modelled from the spec: the external helper construct_time called as
_to_ruby_time (anyvalue.rs line 52). -/
def toRubyTime (v : Int) : RValue := .timeOfDayObj v

/-- Digit rendering of an i128 value, as the to_string call at
anyvalue.rs line 67. -/
def i128ToString (v : Int) : String := toString v

/-- Modelled from the spec: the external helper construct_decimal called
as _to_ruby_decimal (anyvalue.rs line 66), producing a host
arbitrary-precision decimal from a digit string and a negated scale.  The
model records it through its split decomposition: sign, absolute digit
string, and the decimal exponent that makes the value equal digits times
ten to the negated scale. -/
def toRubyDecimal (s : String) (negScale : Int) : RValue :=
  match s.data with
  | '-' :: ds => .bigdecimal (-1) (String.mk ds) (negScale + ds.length)
  | _ => .bigdecimal 1 s (negScale + s.length)

/-! ## Inbound conversion: TryConvert for Wrap of AnyValue,
anyvalue.rs lines 73 to 167.

The source classifies the host value through an ordered chain of dynamic
class checks.  In the model the host shapes are disjoint constructors
except for the DateTime/Date overlap, which the constructor order of the
match below resolves the way the source order does (the DateTime check at
step 9 comes before the Date check at step 10).

The sequence branch follows the source iterator protocol: the first
twenty-five elements are converted (tryConvertFirst), the supertype is
resolved over that sample, and the same iterator is then drained for the
remaining elements (tryConvertRest). -/

mutual

def tryConvert : RValue → Except RbErr AnyValue
  | .bool b => .ok (.booleanAV b)
  | .int n =>
      if inI64 n then .ok (.int64 n)
      else .error (.rangeErr "integer too big to convert to i64")
  | .float x => .ok (.float64 x)
  | .str bytes enc =>
      if enc = .utf8 then
        if validUtf8 bytes then .ok (.strOwned bytes)
        else .error (.encodingErr "invalid byte sequence in UTF-8")
      else .ok (.binaryOwned bytes)
  | .timeInst sec nsec =>
      if inI64 sec ∧ inI64 nsec then
        .ok (.datetimeAV (wrapI64 (sec * 1000000000 + nsec)) .ns none)
      else .error (.rangeErr "integer too big to convert to i64")
  | .nil => .ok .nullAV
  | .hash entries => do
      let kvs ← convertHashEntries entries
      .ok (.structOwned kvs.2 kvs.1)
  | .array xs =>
      if xs.isEmpty then .ok (.listAV .null [])
      else do
        let sample ← tryConvertFirst 25 xs
        let stn ← (anyValuesToSupertypeAndN sample).mapError rbPolarsErrFrom
        let rest ← tryConvertRest 25 xs
        let s ← (seriesFromAnyValuesAndDtype (sample ++ rest) stn.1).mapError rbPolarsErrFrom
        .ok (.listAV stn.1 s)
  | .datetimeInst sec nsec =>
      if inI64 sec ∧ inI64 nsec then
        .ok (.datetimeAV (wrapI64 (sec * 1000000000 + nsec)) .ns none)
      else .error (.rangeErr "integer too big to convert to i64")
  | .dateInst sec =>
      if inI64 sec then .ok (.dateAV (wrapI32 (Int.tdiv sec 86400)))
      else .error (.rangeErr "integer too big to convert to i64")
  | .bigdecimal sign digits exp =>
      match absDecimalFromDigits digits exp with
      | none => .error (rbPolarsErrOther "BigDecimal is too large to fit in Decimal128")
      | some vs =>
          if sign < 0 then
            match checkedNegI128 vs.1 with
            | some v2 => .ok (.decimalAV v2 vs.2)
            | none => .error (.fatal "attempt to negate with overflow")
          else .ok (.decimalAV vs.1 vs.2)
  | v => .error (rbPolarsErrOther ("object type not supported " ++ rubyInspect v))

/-- Hash entry conversion, anyvalue.rs lines 98 to 108: for each entry in
encounter order, coerce the key to a string, convert the value
recursively, and record the field named by the key with the data type
inferred from the converted value. -/
def convertHashEntries :
    List (RValue × RValue) → Except RbErr (List (List Nat × DType) × List AnyValue)
  | [] => .ok ([], [])
  | (k, v) :: rest => do
      let key ← rubyToStr k
      let av ← tryConvert v
      let kvs ← convertHashEntries rest
      .ok ((key, avDtype av) :: kvs.1, av :: kvs.2)

/-- Conversion of up to the first n elements of a sequence, as the
take(25) prefix of the iterator at anyvalue.rs line 119. -/
def tryConvertFirst : Nat → List RValue → Except RbErr (List AnyValue)
  | _, [] => .ok []
  | 0, _ => .ok []
  | n + 1, x :: xs => do
      let a ← tryConvert x
      let rest ← tryConvertFirst n xs
      .ok (a :: rest)

/-- Conversion of the elements after the first n, as draining the same
iterator at anyvalue.rs line 128. -/
def tryConvertRest : Nat → List RValue → Except RbErr (List AnyValue)
  | _, [] => .ok []
  | 0, x :: xs => do
      let a ← tryConvert x
      let rest ← tryConvertRest 0 xs
      .ok (a :: rest)
  | n + 1, _ :: xs => tryConvertRest n xs

end

/-- Whole-list conversion, the reference formulation used by the theorems
to state what the sampled iterator protocol computes. -/
def tryConvertList : List RValue → Except RbErr (List AnyValue)
  | [] => .ok []
  | x :: xs => do
      let a ← tryConvert x
      let rest ← tryConvertList xs
      .ok (a :: rest)

/-! ## Outbound conversion: IntoValue for Wrap of AnyValue,
anyvalue.rs lines 14 to 71.

The result is an Option: none models the aborts the source permits
itself, namely the unwrap of a failed ObjectValue downcast (lines 57 and
61) and the unchecked dictionary accesses of the categorical branch
(lines 31 to 38) on an index out of range. -/

mutual

def intoValue : AnyValue → Option RValue
  | .uint8 n => some (.int n)
  | .uint16 n => some (.int n)
  | .uint32 n => some (.int n)
  | .uint64 n => some (.int n)
  | .int8 n => some (.int n)
  | .int16 n => some (.int n)
  | .int32 n => some (.int n)
  | .int64 n => some (.int n)
  | .float32 x => some (.float (.ofF32 x))
  | .float64 x => some (.float x)
  | .nullAV => some .nil
  | .booleanAV b => some (.bool b)
  | .strBorrowed bytes => some (.str bytes .utf8)
  | .strOwned bytes => some (.str bytes .utf8)
  | .categorical idx rev arr =>
      (match arr with
       | some a => a.get? idx
       | none => rev.get? idx).map (fun s => .str s .utf8)
  | .enumAV idx rev arr =>
      (match arr with
       | some a => a.get? idx
       | none => rev.get? idx).map (fun s => .str s .utf8)
  | .dateAV v => some (toRubyDate v)
  | .datetimeAV v u tz => some (toRubyDatetime v u tz)
  | .durationAV v u => some (toRubyDuration v u)
  | .timeAV v => some (toRubyTime v)
  | .arrayAV _ vs => (intoList vs).map (fun rs => .array rs)
  | .listAV _ vs => (intoList vs).map (fun rs => .array rs)
  | .structAV vals flds => structDict vals flds
  | .structOwned vals flds => structDict vals flds
  | .objectAV p =>
      match p with
      | .objectValue v => some v
      | .foreignBox _ => none
  | .objectOwned p =>
      match p with
      | .objectValue v => some v
      | .foreignBox _ => none
  | .binaryAV bytes => some (.str bytes .binary)
  | .binaryOwned bytes => some (.str bytes .binary)
  | .decimalAV v scale => some (toRubyDecimal (i128ToString v) (wrapI32 (-(wrapI32 (scale : Int)))))

/-- Series to host sequence.  Modelled from the spec: RbSeries to_a (the
call at anyvalue.rs line 53 into series code outside this fragment)
recursively converts every cell into a host value. -/
def intoList : List AnyValue → Option (List RValue)
  | [] => some []
  | a :: rest => do
      let r ← intoValue a
      let rs ← intoList rest
      some (r :: rs)

/-- Record to host mapping.  Modelled from the spec: struct_dict (defined
outside this fragment, called at anyvalue.rs lines 54 and 55) produces an
ordered mapping from field name to converted value. -/
def structDict (vals : List AnyValue) (flds : List (List Nat × DType)) : Option RValue :=
  (intoList vals).map fun rs =>
    .hash ((flds.map (fun f => RValue.str f.1 .utf8)).zip rs)

end

/-! ## Well-formedness of tagged values and the defect predicate -/

mutual

/-- Well-formed tagged values: categorical and enum indices stay inside
the dictionary they read (the source accesses them unchecked), and
composite values are well-formed throughout. -/
def wellFormedAV : AnyValue → Bool
  | .categorical idx rev arr =>
      (match arr with
       | some a => idx < a.length
       | none => idx < rev.length : Bool)
  | .enumAV idx rev arr =>
      (match arr with
       | some a => idx < a.length
       | none => idx < rev.length : Bool)
  | .arrayAV _ vs => wellFormedList vs
  | .listAV _ vs => wellFormedList vs
  | .structAV vals _ => wellFormedList vals
  | .structOwned vals _ => wellFormedList vals
  | _ => true

def wellFormedList : List AnyValue → Bool
  | [] => true
  | a :: rest => wellFormedAV a && wellFormedList rest

end

mutual

/-- A tagged value contains, at some reachable depth, an object variant
whose payload is not the ObjectValue box the binding expects. -/
def hasBadObject : AnyValue → Bool
  | .objectAV p =>
      (match p with
       | .foreignBox _ => true
       | .objectValue _ => false)
  | .objectOwned p =>
      (match p with
       | .foreignBox _ => true
       | .objectValue _ => false)
  | .arrayAV _ vs => hasBadObjectList vs
  | .listAV _ vs => hasBadObjectList vs
  | .structAV vals _ => hasBadObjectList vals
  | .structOwned vals _ => hasBadObjectList vals
  | _ => false

def hasBadObjectList : List AnyValue → Bool
  | [] => false
  | a :: rest => hasBadObject a || hasBadObjectList rest

end

/-! ## Numeric-array export, to_numo_series.rs -/

/-- A column (polars Series) as the export code sees it: a data type and
the cell values. -/
structure SeriesM where
  dtype : DType
  values : List AnyValue

/-- The foreign dense array shapes the export produces: 64-bit float
(Numo DFloat), 32-bit float (Numo SFloat), packed bits (Numo Bit) and
boxed host objects (Numo RObject). -/
inductive NumoArray where
  | dfloat (xs : List F64)
  | sfloat (xs : List F32)
  | bit (xs : List Bool)
  | robject (xs : List RValue)

/-- Primitive numeric data types, as DataType::is_primitive_numeric. -/
def DType.isPrimitiveNumeric : DType → Bool
  | .int8 => true
  | .int16 => true
  | .int32 => true
  | .int64 => true
  | .uint8 => true
  | .uint16 => true
  | .uint32 => true
  | .uint64 => true
  | .float32 => true
  | .float64 => true
  | _ => false

/-- Data types whose bit representation is 64 bits wide, the
BitRepr::Large test of to_numo_series.rs line 27. -/
def DType.isLargeBitRepr : DType → Bool
  | .int64 => true
  | .uint64 => true
  | .float64 => true
  | _ => false

/-- Debug rendering of a data type, standing for the Rust debug format
interpolated into the unsupported-dtype message. -/
def dtypeDebug : DType → String
  | .null => "Null"
  | .boolean => "Boolean"
  | .int8 => "Int8"
  | .int16 => "Int16"
  | .int32 => "Int32"
  | .int64 => "Int64"
  | .uint8 => "UInt8"
  | .uint16 => "UInt16"
  | .uint32 => "UInt32"
  | .uint64 => "UInt64"
  | .float32 => "Float32"
  | .float64 => "Float64"
  | .string => "String"
  | .binary => "Binary"
  | .date => "Date"
  | .datetime u _ => "Datetime(" ++ u.toAscii ++ ")"
  | .duration u => "Duration(" ++ u.toAscii ++ ")"
  | .time => "Time"
  | .decimalD s => "Decimal(" ++ toString s ++ ")"
  | .categoricalD => "Categorical"
  | .enumD => "Enum"
  | .listD inner => "List(" ++ dtypeDebug inner ++ ")"
  | .arrayD inner w => "Array(" ++ dtypeDebug inner ++ ", " ++ toString w ++ ")"
  | .structD _ => "Struct"
  | .object => "Object"

/-- Modelled from the spec: the engine cast of one cell to 64-bit float
used by the export (cast to Float64 followed by the f64 iterator); none
stands for a missing value. -/
def elemToF64 : AnyValue → Option F64
  | .nullAV => none
  | .int8 n => some (.ofInt n)
  | .int16 n => some (.ofInt n)
  | .int32 n => some (.ofInt n)
  | .int64 n => some (.ofInt n)
  | .uint8 n => some (.ofInt n)
  | .uint16 n => some (.ofInt n)
  | .uint32 n => some (.ofInt n)
  | .uint64 n => some (.ofInt n)
  | .float32 x => some (.ofF32 x)
  | .float64 x => some x
  | _ => none

/-- Modelled from the spec: the engine cast of one cell to 32-bit float
used by the export for the small-width branch. -/
def elemToF32 : AnyValue → Option F32
  | .nullAV => none
  | .int8 n => some (.ofInt n)
  | .int16 n => some (.ofInt n)
  | .int32 n => some (.ofInt n)
  | .uint8 n => some (.ofInt n)
  | .uint16 n => some (.ofInt n)
  | .uint32 n => some (.ofInt n)
  | .float32 x => some x
  | _ => none

def elemToBool : AnyValue → Option Bool
  | .booleanAV b => some b
  | _ => none

/-- One cell of a string column as the boxed host value the RObject
export stores: the string itself, or nil for a missing value. -/
def elemToStrVal : AnyValue → RValue
  | .strBorrowed bytes => .str bytes .utf8
  | .strOwned bytes => .str bytes .utf8
  | _ => .nil

def nullCount (vs : List AnyValue) : Nat :=
  vs.countP fun a => match a with | .nullAV => true | _ => false

/-- Embedding of boolean_series_to_numo, to_numo_series.rs lines 71 to
86: bits when the column has no nulls, boxed objects preserving nulls
otherwise. -/
def booleanSeriesToNumo (s : SeriesM) : Except RbErr NumoArray :=
  if nullCount s.values = 0 then
    .ok (.bit (s.values.map fun av => (elemToBool av).getD false))
  else
    .ok (.robject (s.values.map fun av =>
      match elemToBool av with
      | some b => .bool b
      | none => .nil))

/-- Embedding of series_to_numo_with_copy, to_numo_series.rs lines 23 to
68: primitive numerics go through a float cast picked by bit width with
NaN substituted for nulls, booleans dispatch on the null count, strings
box every cell, and any other data type raises a compute error through
the error translator. -/
def seriesToNumoWithCopy (s : SeriesM) : Except RbErr NumoArray :=
  if s.dtype.isPrimitiveNumeric then
    if s.dtype.isLargeBitRepr then
      .ok (.dfloat (s.values.map fun av => (elemToF64 av).getD F64.nan))
    else
      .ok (.sfloat (s.values.map fun av => (elemToF32 av).getD F32.nan))
  else
    match s.dtype with
    | .boolean => booleanSeriesToNumo s
    | .string => .ok (.robject (s.values.map elemToStrVal))
    | dt =>
        .error (rbPolarsErrFrom
          (.computeError ("to_numo not supported for dtype: " ++ dtypeDebug dt)))

/-- Embedding of series_to_numo, to_numo_series.rs lines 18 to 20. -/
def seriesToNumo (s : SeriesM) : Except RbErr NumoArray :=
  seriesToNumoWithCopy s

/-! ## The ordered classification table

This is the spec-side formulation of the inbound classification: a list
of check/handler pairs tried in order, first match wins, with the
unsupported-type error when no check matches.  The handlers here are
written from the spec wording (whole-list prefix and suffix conversion,
entry-wise monadic hash traversal); the dispatch theorem connects this
table to the source if-else chain. -/

def chkBoolean : RValue → Bool
  | .bool _ => true
  | _ => false

def chkInteger : RValue → Bool
  | .int _ => true
  | _ => false

def chkFloat : RValue → Bool
  | .float _ => true
  | _ => false

def chkString : RValue → Bool
  | .str _ _ => true
  | _ => false

/-- A value answering true to is_a?(Time); in the host only Time and its
zone-aware wrappers do. -/
def chkTime : RValue → Bool
  | .timeInst _ _ => true
  | _ => false

def chkNil : RValue → Bool
  | .nil => true
  | _ => false

def chkHash : RValue → Bool
  | .hash _ => true
  | _ => false

def chkArray : RValue → Bool
  | .array _ => true
  | _ => false

def chkDatetime : RValue → Bool
  | .datetimeInst _ _ => true
  | _ => false

/-- A value of the host Date kind.  In Ruby, DateTime is a subclass of
Date, so DateTime instances satisfy this check as well: the check order
is what sends them to the datetime handler instead. -/
def chkDate : RValue → Bool
  | .dateInst _ => true
  | .datetimeInst _ _ => true
  | _ => false

def chkBigDecimal : RValue → Bool
  | .bigdecimal _ _ _ => true
  | _ => false

def hdlBoolean : RValue → Except RbErr AnyValue
  | .bool b => .ok (.booleanAV b)
  | _ => .error (.fatal "handler applied to a value its check rejects")

def hdlInteger : RValue → Except RbErr AnyValue
  | .int n =>
      if inI64 n then .ok (.int64 n)
      else .error (.rangeErr "integer too big to convert to i64")
  | _ => .error (.fatal "handler applied to a value its check rejects")

def hdlFloat : RValue → Except RbErr AnyValue
  | .float x => .ok (.float64 x)
  | _ => .error (.fatal "handler applied to a value its check rejects")

def hdlString : RValue → Except RbErr AnyValue
  | .str bytes enc =>
      if enc = .utf8 then
        if validUtf8 bytes then .ok (.strOwned bytes)
        else .error (.encodingErr "invalid byte sequence in UTF-8")
      else .ok (.binaryOwned bytes)
  | _ => .error (.fatal "handler applied to a value its check rejects")

def hdlTime : RValue → Except RbErr AnyValue
  | .timeInst sec nsec =>
      if inI64 sec ∧ inI64 nsec then
        .ok (.datetimeAV (wrapI64 (sec * 1000000000 + nsec)) .ns none)
      else .error (.rangeErr "integer too big to convert to i64")
  | _ => .error (.fatal "handler applied to a value its check rejects")

def hdlNil : RValue → Except RbErr AnyValue
  | .nil => .ok .nullAV
  | _ => .error (.fatal "handler applied to a value its check rejects")

def hdlHash : RValue → Except RbErr AnyValue
  | .hash entries => do
      let pairs ← entries.mapM fun kv => do
        let key ← rubyToStr kv.1
        let av ← tryConvert kv.2
        pure (((key, avDtype av) : List Nat × DType), av)
      .ok (.structOwned (pairs.map Prod.snd) (pairs.map Prod.fst))
  | _ => .error (.fatal "handler applied to a value its check rejects")

def hdlArray : RValue → Except RbErr AnyValue
  | .array xs =>
      if xs.isEmpty then .ok (.listAV .null [])
      else do
        let sample ← tryConvertList (xs.take 25)
        let stn ← (anyValuesToSupertypeAndN sample).mapError rbPolarsErrFrom
        let rest ← tryConvertList (xs.drop 25)
        let s ← (seriesFromAnyValuesAndDtype (sample ++ rest) stn.1).mapError rbPolarsErrFrom
        .ok (.listAV stn.1 s)
  | _ => .error (.fatal "handler applied to a value its check rejects")

def hdlDatetime : RValue → Except RbErr AnyValue
  | .datetimeInst sec nsec =>
      if inI64 sec ∧ inI64 nsec then
        .ok (.datetimeAV (wrapI64 (sec * 1000000000 + nsec)) .ns none)
      else .error (.rangeErr "integer too big to convert to i64")
  | _ => .error (.fatal "handler applied to a value its check rejects")

def hdlDate : RValue → Except RbErr AnyValue
  | .dateInst sec =>
      if inI64 sec then .ok (.dateAV (wrapI32 (Int.tdiv sec 86400)))
      else .error (.rangeErr "integer too big to convert to i64")
  | _ => .error (.fatal "handler applied to a value its check rejects")

def hdlBigDecimal : RValue → Except RbErr AnyValue
  | .bigdecimal sign digits exp =>
      match absDecimalFromDigits digits exp with
      | none => .error (rbPolarsErrOther "BigDecimal is too large to fit in Decimal128")
      | some vs =>
          if sign < 0 then
            match checkedNegI128 vs.1 with
            | some v2 => .ok (.decimalAV v2 vs.2)
            | none => .error (.fatal "attempt to negate with overflow")
          else .ok (.decimalAV vs.1 vs.2)
  | _ => .error (.fatal "handler applied to a value its check rejects")

/-- The eleven checks of the inbound classification, in source order
(anyvalue.rs lines 75 to 161), each paired with its handler. -/
def checkHandlers : List ((RValue → Bool) × (RValue → Except RbErr AnyValue)) :=
  [(chkBoolean, hdlBoolean), (chkInteger, hdlInteger), (chkFloat, hdlFloat),
   (chkString, hdlString), (chkTime, hdlTime), (chkNil, hdlNil),
   (chkHash, hdlHash), (chkArray, hdlArray), (chkDatetime, hdlDatetime),
   (chkDate, hdlDate), (chkBigDecimal, hdlBigDecimal)]

/-- First-match-wins dispatch over the ordered table, failing with the
unsupported-type error carrying the textual representation when no check
matches. -/
def classifyConvert (v : RValue) : Except RbErr AnyValue :=
  match checkHandlers.find? (fun p => p.1 v) with
  | some p => p.2 v
  | none => .error (rbPolarsErrOther ("object type not supported " ++ rubyInspect v))

/-! ## Spec-side error classification, for the translator claim -/

/-- The three behaviours the spec table distinguishes for the error
translator. -/
inductive ErrCategory where
  | computeCat
  | invalidOpCat
  | otherCat
  deriving DecidableEq

/-- Spec-side category of an engine error. -/
def errCategory : PolarsErrorM → ErrCategory
  | .computeError _ => .computeCat
  | .invalidOperation _ => .invalidOpCat
  | _ => .otherCat

/-- The message payload an engine error carries. -/
def errInnerMsg : PolarsErrorM → String
  | .columnNotFound m => m
  | .computeError m => m
  | .duplicate m => m
  | .invalidOperation m => m
  | .ioErr m => m
  | .noData m => m
  | .outOfBounds m => m
  | .schemaMismatch m => m
  | .shapeMismatch m => m
  | .stringCacheMismatch m => m

/-! ## Round-trippable host values, for the round-trip claim -/

/-- The sequence condition of the round-trip: once the elements are
converted, resolving the supertype over the first twenty-five succeeds
and casting every converted element to it leaves it unchanged (so the
homogeneous column stores the converted elements as they are). -/
def SeqCastsId (xs : List RValue) : Prop :=
  ∀ avs, tryConvertList xs = .ok avs → xs ≠ [] →
    ∃ stn, anyValuesToSupertypeAndN (avs.take 25) = .ok stn ∧
      ∀ av ∈ avs, castAV stn.1 av = .ok av

/-- Host values for which inbound conversion succeeds and outbound
conversion returns the original value: booleans, 64-bit integers,
floats, nil, valid UTF-8 strings, binary strings, mappings with valid
UTF-8 string keys and round-trippable values, and sequences of
round-trippable elements whose converted form is unchanged by the
supertype cast. -/
inductive Roundtrippable : RValue → Prop where
  | bool (b : Bool) : Roundtrippable (.bool b)
  | int (n : Int) (h : inI64 n) : Roundtrippable (.int n)
  | float (x : F64) : Roundtrippable (.float x)
  | utf8Str (bytes : List Nat) (h : validUtf8 bytes = true) :
      Roundtrippable (.str bytes .utf8)
  | binStr (bytes : List Nat) : Roundtrippable (.str bytes .binary)
  | nilV : Roundtrippable .nil
  | hash (entries : List (RValue × RValue))
      (hk : ∀ kv ∈ entries, ∃ kb, kv.1 = RValue.str kb .utf8 ∧ validUtf8 kb = true)
      (hv : ∀ kv ∈ entries, Roundtrippable kv.2) :
      Roundtrippable (.hash entries)
  | array (xs : List RValue)
      (hx : ∀ x ∈ xs, Roundtrippable x)
      (hc : SeqCastsId xs) :
      Roundtrippable (.array xs)

/-! # Helper lemmas -/

theorem wrapI32_eq_self (x : Int) (h1 : -2147483648 ≤ x) (h2 : x < 2147483648) :
    wrapI32 x = x := by
  unfold wrapI32
  rw [Int.emod_eq_of_lt (by omega) (by omega)]
  omega

/-- For a non-positive i32 exponent strictly above the i32 minimum, the
wrapped negation followed by the usize cast is the exact negation. -/
theorem i32AsUsize_neg_eq (x : Int) (h1 : -2147483648 < x) (h2 : x ≤ 0) :
    i32AsUsize (wrapI32 (-x)) = (-x).toNat := by
  rw [wrapI32_eq_self (-x) (by omega) (by omega)]
  unfold i32AsUsize
  rw [Int.emod_eq_of_lt (by omega) (by omega)]

theorem parseI128_digits_nonneg (D : String) (M : Int)
    (hd : D.data.all Char.isDigit = true) (hp : parseI128 D = some M) : 0 ≤ M := by
  unfold parseI128 at hp
  cases hD : D.data with
  | nil => rw [hD] at hp; exact absurd hp (by simp [parseI128Chars])
  | cons c cs =>
      rw [hD] at hp
      rw [hD] at hd
      rw [parseI128Chars] at hp
      simp only [List.all_cons, Bool.and_eq_true] at hd
      have hplus : ¬ c = '+' := by
        intro h; rw [h] at hd; exact absurd hd.1 (by decide)
      have hminus : ¬ c = '-' := by
        intro h; rw [h] at hd; exact absurd hd.1 (by decide)
      rw [if_neg hplus, if_neg hminus] at hp
      cases hpd : parseDigits (c :: cs) with
      | none => rw [hpd] at hp; exact absurd hp (by simp)
      | some n =>
          rw [hpd] at hp
          simp only [Option.some_bind] at hp
          by_cases hle : (n : Int) ≤ i128Max
          · rw [if_pos hle] at hp
            cases hp
            exact Int.natCast_nonneg n
          · rw [if_neg hle] at hp
            exact absurd hp (by simp)

/-- When the digit string does not parse, the decomposition fails. -/
theorem absDecimal_eq_none (D : String) (E : Int)
    (hp : parseI128 D = none) : absDecimalFromDigits D E = none := by
  unfold absDecimalFromDigits
  rw [hp]

/-- Under no-overflow side conditions on the 32-bit exponent arithmetic
(including the strict lower bound that keeps the scale negation from
wrapping), the decomposition computes with the mathematical adjusted
exponent. -/
theorem absDecimal_eq_parse (D : String) (E : Int) (M : Int)
    (hp : parseI128 D = some M)
    (hlen : (D.length : Int) < 2147483648)
    (hlo : -2147483648 < E - (D.length : Int))
    (hhi : E - (D.length : Int) < 2147483648) :
    absDecimalFromDigits D E =
      if 0 < E - (D.length : Int) then
        match (checkedPow10 (E - (D.length : Int)).toNat).bind
            (fun factor => checkedMulI128 M factor) with
        | some v2 => some (v2, 0)
        | none => none
      else some (M, (-(E - (D.length : Int))).toNat) := by
  unfold absDecimalFromDigits
  rw [hp]
  rw [wrapI32_eq_self (D.length : Int) (by omega) hlen]
  rw [wrapI32_eq_self _ (by omega) hhi]
  dsimp only
  by_cases hpos : 0 < E - (D.length : Int)
  · rw [if_pos hpos, if_pos hpos]
  · rw [if_neg hpos, if_neg hpos, i32AsUsize_neg_eq _ hlo (by omega)]

/-- When the decomposition succeeds, the returned magnitude and scale
reconstruct the decimal value exactly. -/
theorem absDecimal_reconstructs (D : String) (E : Int) (M : Int)
    (hp : parseI128 D = some M)
    (hlen : (D.length : Int) < 2147483648)
    (hlo : -2147483648 < E - (D.length : Int))
    (hhi : E - (D.length : Int) < 2147483648) :
    ∀ v s, absDecimalFromDigits D E = some (v, s) →
      (v : ℚ) / (10 : ℚ) ^ s = (M : ℚ) * (10 : ℚ) ^ (E - (D.length : Int)) := by
  intro v s habs
  rw [absDecimal_eq_parse D E M hp hlen hlo hhi] at habs
  by_cases hpos : 0 < E - (D.length : Int)
  · rw [if_pos hpos] at habs
    cases hpow : checkedPow10 (E - (D.length : Int)).toNat with
    | none => rw [hpow] at habs; exact absurd habs (by simp)
    | some factor =>
        rw [hpow] at habs
        simp only [Option.some_bind] at habs
        cases hmul : checkedMulI128 M factor with
        | none => rw [hmul] at habs; exact absurd habs (by simp)
        | some v2 =>
            rw [hmul] at habs
            simp only [Option.some_inj, Prod.mk.injEq] at habs
            obtain ⟨hv, hs⟩ := habs
            subst hv
            subst hs
            unfold checkedPow10 at hpow
            unfold checkedMulI128 at hmul
            split at hpow
            · simp only [Option.some_inj] at hpow
              subst hpow
              split at hmul
              · simp only [Option.some_inj] at hmul
                subst hmul
                push_cast
                rw [pow_zero, div_one]
                rw [← zpow_natCast (10 : ℚ) (E - (D.length : Int)).toNat]
                rw [Int.toNat_of_nonneg (by omega)]
              · exact absurd hmul (by simp)
            · exact absurd hpow (by simp)
  · rw [if_neg hpos] at habs
    simp only [Option.some_inj, Prod.mk.injEq] at habs
    obtain ⟨hv, hs⟩ := habs
    subst hv
    subst hs
    have hs2 : (((-(E - (D.length : Int))).toNat : ℕ) : ℤ) = -(E - (D.length : Int)) :=
      Int.toNat_of_nonneg (by omega)
    rw [div_eq_iff (by positivity)]
    rw [← zpow_natCast (10 : ℚ) (-(E - (D.length : Int))).toNat]
    rw [hs2]
    rw [mul_assoc, ← zpow_add₀ (by norm_num : (10 : ℚ) ≠ 0)]
    simp

/-- When the digit string parses but the multiplied magnitude exceeds the
i128 range, the decomposition fails. -/
theorem absDecimal_overflow_none (D : String) (E : Int) (M : Int)
    (hd : D.data.all Char.isDigit = true)
    (hp : parseI128 D = some M)
    (hlen : (D.length : Int) < 2147483648)
    (hlo : -2147483648 < E - (D.length : Int))
    (hhi : E - (D.length : Int) < 2147483648)
    (hpos : 0 < E - (D.length : Int))
    (hbig : i128Max < M * (10 : Int) ^ (E - (D.length : Int)).toNat) :
    absDecimalFromDigits D E = none := by
  have hM : 0 ≤ M := parseI128_digits_nonneg D M hd hp
  rw [absDecimal_eq_parse D E M hp hlen hlo hhi, if_pos hpos]
  by_cases hpow : (10 : Int) ^ (E - (D.length : Int)).toNat ≤ i128Max
  · have hmul : ¬ (i128Min ≤ M * (10 : Int) ^ (E - (D.length : Int)).toNat ∧
        M * (10 : Int) ^ (E - (D.length : Int)).toNat ≤ i128Max) := by
      intro hc
      omega
    rw [show checkedPow10 (E - (D.length : Int)).toNat =
        some ((10 : Int) ^ (E - (D.length : Int)).toNat) from by
      unfold checkedPow10; rw [if_pos hpow]]
    simp only [Option.some_bind]
    unfold checkedMulI128
    rw [if_neg hmul]
  · rw [show checkedPow10 (E - (D.length : Int)).toNat = none from by
      unfold checkedPow10; rw [if_neg hpow]]
    rfl

theorem exceptBind_ok {α β ε : Type} (a : α) (f : α → Except ε β) :
    (Except.ok a >>= f) = f a := rfl

theorem exceptBind_err {α β ε : Type} (e : ε) (f : α → Except ε β) :
    ((Except.error e : Except ε α) >>= f) = Except.error e := rfl

/-- The take(25) prefix of the source iterator converts exactly the
prefix of the element list. -/
theorem tryConvertFirst_eq (n : Nat) (xs : List RValue) :
    tryConvertFirst n xs = tryConvertList (xs.take n) := by
  induction xs generalizing n with
  | nil => cases n <;> rfl
  | cons x rest ih =>
      cases n with
      | zero => rfl
      | succ m =>
          rw [tryConvertFirst, List.take_succ_cons, tryConvertList, ih]

/-- Draining the source iterator after n elements converts exactly the
suffix of the element list. -/
theorem tryConvertRest_eq (n : Nat) (xs : List RValue) :
    tryConvertRest n xs = tryConvertList (xs.drop n) := by
  induction xs generalizing n with
  | nil => cases n <;> rfl
  | cons x rest ih =>
      cases n with
      | zero =>
          rw [tryConvertRest, List.drop_zero, tryConvertList, ih, List.drop_zero]
      | succ m =>
          rw [tryConvertRest, List.drop_succ_cons, ih]

/-- The accumulating hash traversal computes the same fields and values
as an entry-wise monadic map. -/
theorem convertHashEntries_eq (entries : List (RValue × RValue)) :
    convertHashEntries entries =
      (entries.mapM fun kv => do
        let key ← rubyToStr kv.1
        let av ← tryConvert kv.2
        pure (((key, avDtype av) : List Nat × DType), av)) >>= fun pairs =>
          .ok (pairs.map Prod.fst, pairs.map Prod.snd) := by
  induction entries with
  | nil => rfl
  | cons kv rest ih =>
      rw [convertHashEntries, List.mapM_cons]
      cases hk : rubyToStr kv.1 with
      | error e => simp [hk, exceptBind_err]
      | ok key =>
          cases hv : tryConvert kv.2 with
          | error e => simp [hk, hv, exceptBind_err, exceptBind_ok]
          | ok av =>
              rw [ih]
              cases hm : rest.mapM (fun kv => do
                  let key ← rubyToStr kv.1
                  let av ← tryConvert kv.2
                  pure (((key, avDtype av) : List Nat × DType), av)) with
              | error e => simp [hk, hv, hm, exceptBind_err, exceptBind_ok]
              | ok pairs => simp [hk, hv, hm, exceptBind_err, exceptBind_ok]

/-- Whole-list conversion preserves the element count. -/
theorem tryConvertList_length (xs : List RValue) (avs : List AnyValue)
    (h : tryConvertList xs = .ok avs) : avs.length = xs.length := by
  induction xs generalizing avs with
  | nil =>
      rw [tryConvertList] at h
      cases h
      rfl
  | cons x rest ih =>
      rw [tryConvertList] at h
      cases ha : tryConvert x with
      | error e => rw [ha] at h; exact absurd h (by simp [exceptBind_err])
      | ok a =>
          rw [ha, exceptBind_ok] at h
          cases hr : tryConvertList rest with
          | error e => rw [hr] at h; exact absurd h (by simp [exceptBind_err])
          | ok rs =>
              rw [hr, exceptBind_ok] at h
              cases h
              simp [ih rs hr]

/-- Homogeneous column construction preserves the element count. -/
theorem seriesFrom_length (avs : List AnyValue) (d : DType) (vals : List AnyValue)
    (h : seriesFromAnyValuesAndDtype avs d = .ok vals) : vals.length = avs.length := by
  unfold seriesFromAnyValuesAndDtype at h
  induction avs generalizing vals with
  | nil =>
      rw [List.mapM_nil] at h
      cases h
      rfl
  | cons a rest ih =>
      rw [List.mapM_cons] at h
      cases ha : castAV d a with
      | error e => rw [ha] at h; exact absurd h (by simp [exceptBind_err])
      | ok a2 =>
          rw [ha, exceptBind_ok] at h
          cases hr : rest.mapM (castAV d) with
          | error e => rw [hr] at h; exact absurd h (by simp [exceptBind_err])
          | ok rs =>
              rw [hr] at h
              simp only [exceptBind_ok] at h
              cases h
              simp [ih rs hr]

/-- A successful cast produces either a cell of the target data type or
a null. -/
theorem castAV_ok (d : DType) (a a2 : AnyValue) (h : castAV d a = .ok a2) :
    DType.beq (avDtype a2) d = true ∨ a2 = .nullAV := by
  unfold castAV at h
  split at h
  · cases h
    right
    rfl
  · cases h
    left
    rfl
  · split at h
    · cases h
      left
      assumption
    · exact absurd h (by simp)

/-- Every cell of a constructed homogeneous column either carries the
column data type or is a null. -/
theorem seriesFrom_homogeneous (avs : List AnyValue) (d : DType) (vals : List AnyValue)
    (h : seriesFromAnyValuesAndDtype avs d = .ok vals) :
    ∀ av ∈ vals, DType.beq (avDtype av) d = true ∨ av = .nullAV := by
  unfold seriesFromAnyValuesAndDtype at h
  induction avs generalizing vals with
  | nil =>
      rw [List.mapM_nil] at h
      cases h
      intro av hav
      exact absurd hav (by simp)
  | cons a rest ih =>
      rw [List.mapM_cons] at h
      cases ha : castAV d a with
      | error e => rw [ha] at h; exact absurd h (by simp [exceptBind_err])
      | ok a2 =>
          rw [ha, exceptBind_ok] at h
          cases hr : rest.mapM (castAV d) with
          | error e => rw [hr] at h; exact absurd h (by simp [exceptBind_err])
          | ok rs =>
              rw [hr] at h
              simp only [exceptBind_ok] at h
              cases h
              intro av hav
              rcases List.mem_cons.mp hav with hav | hav
              · subst hav
                exact castAV_ok d a av ha
              · exact ih rs hr av hav

theorem exceptMapError_ok {α ε ε2 : Type} (a : α) (f : ε → ε2) :
    (Except.ok a : Except ε α).mapError f = .ok a := rfl

/-- Pointwise round-trips lift to whole-list conversion. -/
theorem roundtrip_list (xs : List RValue)
    (h : ∀ x ∈ xs, ∃ av, tryConvert x = .ok av ∧ intoValue av = some x) :
    ∃ avs, tryConvertList xs = .ok avs ∧ intoList avs = some xs := by
  induction xs with
  | nil => exact ⟨[], rfl, by rw [intoList]⟩
  | cons x rest ih =>
      obtain ⟨av, hx1, hx2⟩ := h x (List.mem_cons_self x rest)
      obtain ⟨avs, hr1, hr2⟩ := ih fun y hy => h y (List.mem_cons_of_mem x hy)
      refine ⟨av :: avs, ?_, ?_⟩
      · rw [tryConvertList, hx1, exceptBind_ok, hr1, exceptBind_ok]
      · rw [intoList]
        simp [hx2, hr2]

/-- A successful whole-list conversion splits along take and drop. -/
theorem tryConvertList_take_drop (n : Nat) (xs : List RValue) (avs : List AnyValue)
    (h : tryConvertList xs = .ok avs) :
    tryConvertList (xs.take n) = .ok (avs.take n) ∧
    tryConvertList (xs.drop n) = .ok (avs.drop n) := by
  induction xs generalizing n avs with
  | nil =>
      rw [tryConvertList] at h
      cases h
      simp [tryConvertList]
  | cons x rest ih =>
      rw [tryConvertList] at h
      cases hx : tryConvert x with
      | error e => rw [hx] at h; exact absurd h (by simp [exceptBind_err])
      | ok a =>
          rw [hx, exceptBind_ok] at h
          cases hr : tryConvertList rest with
          | error e => rw [hr] at h; exact absurd h (by simp [exceptBind_err])
          | ok rs =>
              rw [hr, exceptBind_ok] at h
              cases h
              cases n with
              | zero =>
                  refine ⟨by simp [tryConvertList], ?_⟩
                  simp only [List.drop_zero]
                  rw [tryConvertList, hx, exceptBind_ok, hr, exceptBind_ok]
              | succ m =>
                  refine ⟨?_, (ih m rs hr).2⟩
                  rw [List.take_succ_cons, List.take_succ_cons, tryConvertList, hx,
                    exceptBind_ok, (ih m rs hr).1, exceptBind_ok]

/-- Casting a list of cells each fixed by the cast rebuilds the list. -/
theorem seriesFrom_id (avs : List AnyValue) (d : DType)
    (h : ∀ av ∈ avs, castAV d av = .ok av) :
    seriesFromAnyValuesAndDtype avs d = .ok avs := by
  unfold seriesFromAnyValuesAndDtype
  induction avs with
  | nil => rfl
  | cons a rest ih =>
      rw [List.mapM_cons, h a (List.mem_cons_self a rest), exceptBind_ok,
        ih fun y hy => h y (List.mem_cons_of_mem a hy), exceptBind_ok]
      rfl

/-- Pointwise round-trips of hash entries lift to the record round-trip. -/
theorem roundtrip_hashEntries (entries : List (RValue × RValue))
    (hk : ∀ kv ∈ entries, ∃ kb, kv.1 = RValue.str kb .utf8 ∧ validUtf8 kb = true)
    (hv : ∀ kv ∈ entries, ∃ av, tryConvert kv.2 = .ok av ∧ intoValue av = some kv.2) :
    ∃ flds vals, convertHashEntries entries = .ok (flds, vals) ∧
      structDict vals flds = some (.hash entries) := by
  induction entries with
  | nil => exact ⟨[], [], rfl, by rw [structDict, intoList]; rfl⟩
  | cons kv rest ih =>
      obtain ⟨kb, hkb, hkbv⟩ := hk kv (List.mem_cons_self kv rest)
      obtain ⟨av, hav1, hav2⟩ := hv kv (List.mem_cons_self kv rest)
      obtain ⟨flds, vals, h1, h2⟩ := ih
        (fun y hy => hk y (List.mem_cons_of_mem kv hy))
        (fun y hy => hv y (List.mem_cons_of_mem kv hy))
      have hkey : rubyToStr kv.1 = .ok kb := by
        rw [hkb]
        simp [rubyToStr, hkbv]
      rw [structDict] at h2
      cases hil : intoList vals with
      | none => rw [hil] at h2; exact absurd h2 (by simp)
      | some rs =>
          rw [hil] at h2
          simp only [Option.map_some', Option.some_inj, RValue.hash.injEq] at h2
          refine ⟨(kb, avDtype av) :: flds, av :: vals, ?_, ?_⟩
          · rw [convertHashEntries, hkey, exceptBind_ok, hav1, exceptBind_ok, h1,
              exceptBind_ok]
          · rw [structDict, intoList, hav2, hil]
            simp [List.zip_cons_cons, h2, ← hkb]

/-! # Claim theorems -/

/-- C7: the error translator maps every internal engine error by category
and nothing else: compute failures become the compute exception with the
internal message, invalid-operation failures become the invalid-operation
exception with the internal message, and every other category becomes the
generic library error whose message equals the textual form of the
internal error; the translation is a total function, so every failure
surfaces immediately as one exception. -/
theorem claim_C7 (e : PolarsErrorM) :
    rbPolarsErrFrom e =
      match errCategory e with
      | .computeCat => .compute (errInnerMsg e)
      | .invalidOpCat => .invalidOp (errInnerMsg e)
      | .otherCat => .generic e.display := by
  cases e <;> rfl

/-- C9 (amended): inbound conversion of a host string yields an owned
UTF-8 string value when the declared encoding is UTF-8 and the bytes are
valid UTF-8, fails with an encoding error when the declared encoding is
UTF-8 but the bytes are invalid, and yields an owned binary value with
the raw bytes when the declared encoding is not UTF-8. -/
theorem claim_C9 (bytes : List Nat) (enc : REnc) :
    tryConvert (.str bytes enc) =
      if enc = .utf8 then
        if validUtf8 bytes then .ok (.strOwned bytes)
        else .error (.encodingErr "invalid byte sequence in UTF-8")
      else .ok (.binaryOwned bytes) := by
  rw [tryConvert]

/-- C9 counterexample: on the host string with declared encoding UTF-8
and the single invalid byte 255, inbound conversion raises an encoding
error; the claim instead promises a value (an owned binary, since the
byte sequence is not validly UTF-8 encoded), so the claim fails on this
input. -/
theorem claim_C9_counterexample :
    tryConvert (.str [255] .utf8) =
      .error (.encodingErr "invalid byte sequence in UTF-8") := by
  rfl

/-- C10: whenever the decimal decomposition fails, inbound conversion of
the arbitrary-precision decimal raises the generic library error with the
fixed overflow message, and never the host range-error class. -/
theorem claim_C10 (sign : Int) (D : String) (E : Int)
    (habs : absDecimalFromDigits D E = none) :
    tryConvert (.bigdecimal sign D E) =
      .error (.generic "BigDecimal is too large to fit in Decimal128")
    ∧ ∀ m, tryConvert (.bigdecimal sign D E) ≠ .error (.rangeErr m) := by
  have h : tryConvert (.bigdecimal sign D E) =
      .error (.generic "BigDecimal is too large to fit in Decimal128") := by
    rw [tryConvert, habs]
    rfl
  refine ⟨h, ?_⟩
  intro m hcontra
  rw [h] at hcontra
  exact absurd hcontra (by simp)

/-- C10 witness: a concrete overflowing decimal (digit 9 with exponent
50) is rejected with the generic library error. -/
theorem claim_C10_witness :
    tryConvert (.bigdecimal 1 "9" 50) =
      .error (.generic "BigDecimal is too large to fit in Decimal128") :=
  (claim_C10 1 "9" 50 (by rfl)).1

/-- C1 counterexample: on the digit string 0 with exponent 40 the claim
premises hold (the string parses to magnitude 0, the adjusted exponent 39
is positive, and 0 times ten to the 39 fits in 128 bits), yet the
decomposition returns none instead of the promised pair (0, 0): the
checked power of ten overflows before the multiplication by the zero
magnitude is attempted. -/
theorem claim_C1_counterexample :
    parseI128 "0" = some 0
    ∧ 0 < (40 : Int) - (("0" : String).length : Int)
    ∧ (0 : Int) * (10 : Int) ^ ((40 : Int) - (("0" : String).length : Int)).toNat ≤ i128Max
    ∧ absDecimalFromDigits "0" 40 = none := by
  refine ⟨by rfl, by decide, by decide, by rfl⟩

/-- C1 (amended): for every decimal digit string D parsing as i128
magnitude M and exponent E whose adjusted exponent E minus length(D) is
computed without 32-bit overflow and lies strictly above the i32 minimum
(so its negation does not wrap either): when the adjusted exponent is not
positive the decomposition returns magnitude M unchanged with the negated
adjusted exponent as scale; when it is positive and both ten to the
adjusted exponent and M times that power fit in 128 bits it returns the
multiplied magnitude with scale zero; and every returned pair
reconstructs the original decimal value M times ten to the adjusted
exponent exactly. -/
theorem claim_C1 (D : String) (E : Int) (M : Int)
    (hd : D.data.all Char.isDigit = true)
    (hp : parseI128 D = some M)
    (hlen : (D.length : Int) < 2147483648)
    (hlo : -2147483648 < E - (D.length : Int))
    (hhi : E - (D.length : Int) < 2147483648) :
    (E - (D.length : Int) ≤ 0 →
      absDecimalFromDigits D E = some (M, (-(E - (D.length : Int))).toNat))
    ∧ (0 < E - (D.length : Int) →
        (10 : Int) ^ (E - (D.length : Int)).toNat ≤ i128Max →
        M * (10 : Int) ^ (E - (D.length : Int)).toNat ≤ i128Max →
        absDecimalFromDigits D E =
          some (M * (10 : Int) ^ (E - (D.length : Int)).toNat, 0))
    ∧ (∀ v s, absDecimalFromDigits D E = some (v, s) →
        (v : ℚ) / (10 : ℚ) ^ s = (M : ℚ) * (10 : ℚ) ^ (E - (D.length : Int))) := by
  refine ⟨?_, ?_, absDecimal_reconstructs D E M hp hlen hlo hhi⟩
  · intro hle
    rw [absDecimal_eq_parse D E M hp hlen hlo hhi, if_neg (by omega)]
  · intro hpos hpow hmul
    have hM : 0 ≤ M := parseI128_digits_nonneg D M hd hp
    have hnn : 0 ≤ M * (10 : Int) ^ (E - (D.length : Int)).toNat :=
      mul_nonneg hM (by positivity)
    rw [absDecimal_eq_parse D E M hp hlen hlo hhi, if_pos hpos]
    rw [show checkedPow10 (E - (D.length : Int)).toNat =
        some ((10 : Int) ^ (E - (D.length : Int)).toNat) from by
      unfold checkedPow10; rw [if_pos hpow]]
    simp only [Option.some_bind]
    unfold checkedMulI128
    rw [if_pos ⟨by unfold i128Min; omega, hmul⟩]

/-- C1 witness: the digit 5 with exponent 10 has adjusted exponent 9, and
the decomposition multiplies the magnitude out to five billion with
scale 0. -/
theorem claim_C1_witness :
    absDecimalFromDigits "5" 10 = some (5000000000, 0) := by
  have h2 := (claim_C1 "5" 10 5 (by decide) (by rfl) (by decide) (by decide)
    (by decide)).2.1 (by decide) (by decide) (by decide)
  rw [h2]
  decide

/-- C2: whenever the digit string fails to parse as an i128, or the
magnitude multiplied by ten to the positive adjusted exponent exceeds the
i128 range, inbound conversion of the arbitrary-precision decimal fails
with the decimal-overflow error; and whenever the decomposition does
return a pair (within the wrap-free exponent range of the hypotheses),
that pair reconstructs the original decimal value exactly, so no
truncated or wrapped magnitude is ever produced. -/
theorem claim_C2 (sign : Int) (D : String) (E : Int)
    (hd : D.data.all Char.isDigit = true)
    (hlen : (D.length : Int) < 2147483648)
    (hlo : -2147483648 < E - (D.length : Int))
    (hhi : E - (D.length : Int) < 2147483648) :
    ((parseI128 D = none ∨
        ∃ M, parseI128 D = some M ∧ 0 < E - (D.length : Int) ∧
          i128Max < M * (10 : Int) ^ (E - (D.length : Int)).toNat) →
      tryConvert (.bigdecimal sign D E) =
        .error (.generic "BigDecimal is too large to fit in Decimal128"))
    ∧ (∀ M v s, parseI128 D = some M → absDecimalFromDigits D E = some (v, s) →
        (v : ℚ) / (10 : ℚ) ^ s = (M : ℚ) * (10 : ℚ) ^ (E - (D.length : Int))) := by
  constructor
  · intro hover
    have habs : absDecimalFromDigits D E = none := by
      rcases hover with hnone | ⟨M, hp, hpos, hbig⟩
      · exact absDecimal_eq_none D E hnone
      · exact absDecimal_overflow_none D E M hd hp hlen hlo hhi hpos hbig
    rw [tryConvert, habs]
    rfl
  · intro M v s hp habs
    exact absDecimal_reconstructs D E M hp hlen hlo hhi v s habs

/-- C2 witness: the 39-digit string holding two to the 127th power does
not fit in i128, and the conversion fails with the overflow error. -/
theorem claim_C2_witness :
    tryConvert (.bigdecimal 1 "170141183460469231731687303715884105728" 0) =
      .error (.generic "BigDecimal is too large to fit in Decimal128") := by
  refine (claim_C2 1 _ 0 (by decide) (by decide) (by decide) (by decide)).1 (Or.inl ?_)
  rfl

/-- C4: inbound conversion is exactly first-match-wins dispatch over the
ordered check table boolean, integer, float, string, time, nil, mapping,
sequence, datetime, date, arbitrary-precision decimal; a value matching
no check fails with the unsupported-type error carrying its textual
representation, and only such values do. -/
theorem claim_C4 (v : RValue) : tryConvert v = classifyConvert v := by
  cases v with
  | hash entries =>
      show tryConvert (.hash entries) = hdlHash (.hash entries)
      simp only [tryConvert, hdlHash]
      rw [convertHashEntries_eq]
      cases hm : entries.mapM (fun kv => do
          let key ← rubyToStr kv.1
          let av ← tryConvert kv.2
          pure (((key, avDtype av) : List Nat × DType), av)) with
      | error e => simp [hm, exceptBind_err]
      | ok pairs => simp [hm, exceptBind_ok]
  | array xs =>
      show tryConvert (.array xs) = hdlArray (.array xs)
      simp only [tryConvert, hdlArray]
      rw [tryConvertFirst_eq, tryConvertRest_eq]
  | bool b => rfl
  | int n => rfl
  | float x => rfl
  | str bytes enc => rfl
  | nil => rfl
  | timeInst sec nsec => rfl
  | datetimeInst sec nsec => rfl
  | dateInst sec => rfl
  | bigdecimal sign digits exp => rfl
  | durationObj ticks u => rfl
  | timeOfDayObj ticks => rfl
  | hostObj id => rfl

/-- C5: inbound conversion of a host sequence returns, for an empty
sequence, a list value of null element type with no elements; for a
non-empty sequence it converts the first twenty-five elements, resolves
their common supertype through the engine resolver, converts the
remaining elements, and builds one homogeneous column from the full
converted sequence cast to that supertype, returned as a list value; the
resulting column has one cell per input element and every cell carries
the inferred supertype or is null. -/
theorem claim_C5 (xs : List RValue) :
    (tryConvert (.array xs) =
      if xs.isEmpty then .ok (.listAV .null [])
      else (do
        let sample ← tryConvertList (xs.take 25)
        let stn ← (anyValuesToSupertypeAndN sample).mapError rbPolarsErrFrom
        let rest ← tryConvertList (xs.drop 25)
        let s ← (seriesFromAnyValuesAndDtype (sample ++ rest) stn.1).mapError rbPolarsErrFrom
        .ok (.listAV stn.1 s)))
    ∧ (∀ d vals, tryConvert (.array xs) = .ok (.listAV d vals) →
        vals.length = xs.length ∧
        ∀ av ∈ vals, DType.beq (avDtype av) d = true ∨ av = .nullAV) := by
  have hpipe : tryConvert (.array xs) =
      if xs.isEmpty then .ok (.listAV .null [])
      else (do
        let sample ← tryConvertList (xs.take 25)
        let stn ← (anyValuesToSupertypeAndN sample).mapError rbPolarsErrFrom
        let rest ← tryConvertList (xs.drop 25)
        let s ← (seriesFromAnyValuesAndDtype (sample ++ rest) stn.1).mapError rbPolarsErrFrom
        .ok (.listAV stn.1 s)) := by
    simp only [tryConvert]
    rw [tryConvertFirst_eq, tryConvertRest_eq]
  refine ⟨hpipe, ?_⟩
  intro d vals hok
  rw [hpipe] at hok
  by_cases hemp : xs.isEmpty
  · rw [if_pos hemp] at hok
    simp only [Except.ok.injEq, AnyValue.listAV.injEq] at hok
    obtain ⟨hd, hvals⟩ := hok
    subst hd
    subst hvals
    constructor
    · rw [List.isEmpty_iff.mp hemp]
      rfl
    · intro av hav
      exact absurd hav (by simp)
  · rw [if_neg hemp] at hok
    cases hs : tryConvertList (xs.take 25) with
    | error e => rw [hs] at hok; exact absurd hok (by simp [exceptBind_err])
    | ok sample =>
        rw [hs, exceptBind_ok] at hok
        cases hst : (anyValuesToSupertypeAndN sample).mapError rbPolarsErrFrom with
        | error e => rw [hst] at hok; exact absurd hok (by simp [exceptBind_err])
        | ok stn =>
            rw [hst, exceptBind_ok] at hok
            cases hr : tryConvertList (xs.drop 25) with
            | error e => rw [hr] at hok; exact absurd hok (by simp [exceptBind_err])
            | ok rest =>
                rw [hr, exceptBind_ok] at hok
                cases hsr : (seriesFromAnyValuesAndDtype (sample ++ rest) stn.1).mapError
                    rbPolarsErrFrom with
                | error e => rw [hsr] at hok; exact absurd hok (by simp [exceptBind_err])
                | ok s =>
                    rw [hsr, exceptBind_ok] at hok
                    simp only [Except.ok.injEq, AnyValue.listAV.injEq] at hok
                    obtain ⟨hd, hvals⟩ := hok
                    subst hd
                    subst hvals
                    have hser : seriesFromAnyValuesAndDtype (sample ++ rest) stn.1 = .ok s := by
                      cases hx : seriesFromAnyValuesAndDtype (sample ++ rest) stn.1 with
                      | error e => rw [hx] at hsr; exact absurd hsr (by simp [Except.mapError])
                      | ok s2 =>
                          rw [hx] at hsr
                          simp only [Except.mapError, Except.ok.injEq] at hsr
                          rw [hsr]
                    constructor
                    · rw [seriesFrom_length _ _ _ hser, List.length_append,
                        tryConvertList_length _ _ hs, tryConvertList_length _ _ hr,
                        List.length_take, List.length_drop]
                      omega
                    · exact seriesFrom_homogeneous _ _ _ hser

/-- C5 witness: the two-element sequence of the integer one and nil
converts to an int64 column of length two. -/
theorem claim_C5_witness :
    ([AnyValue.int64 1, AnyValue.nullAV] : List AnyValue).length =
      ([RValue.int 1, RValue.nil] : List RValue).length ∧
    ∀ av ∈ ([AnyValue.int64 1, AnyValue.nullAV] : List AnyValue),
      DType.beq (avDtype av) .int64 = true ∨ av = .nullAV :=
  (claim_C5 [RValue.int 1, RValue.nil]).2 .int64 [.int64 1, .nullAV] (by rfl)

/-- C6: numeric-array export dispatches solely on the column data type:
a 64-bit-wide primitive numeric column exports as a dense 64-bit float
array and a smaller one as a dense 32-bit float array, with NaN
substituted for every null; a boolean column with no nulls exports as a
packed-bit array and one with nulls as a boxed-object array preserving
the nulls; a string column exports as a boxed-object array; and every
other data type fails with the not-supported compute error. -/
theorem claim_C6 (s : SeriesM)
    (hwf : ∀ av ∈ s.values, avDtype av = s.dtype ∨ av = .nullAV) :
    (s.dtype.isPrimitiveNumeric = true → s.dtype.isLargeBitRepr = true →
      seriesToNumo s = .ok (.dfloat (s.values.map fun av => (elemToF64 av).getD F64.nan)))
    ∧ (s.dtype.isPrimitiveNumeric = true → s.dtype.isLargeBitRepr = false →
      seriesToNumo s = .ok (.sfloat (s.values.map fun av => (elemToF32 av).getD F32.nan)))
    ∧ (s.dtype = .boolean → nullCount s.values = 0 →
      seriesToNumo s = .ok (.bit (s.values.map fun av => (elemToBool av).getD false)))
    ∧ (s.dtype = .boolean → nullCount s.values ≠ 0 →
      seriesToNumo s = .ok (.robject (s.values.map fun av =>
        match elemToBool av with
        | some b => .bool b
        | none => .nil)))
    ∧ (s.dtype = .string →
      seriesToNumo s = .ok (.robject (s.values.map elemToStrVal)))
    ∧ (s.dtype.isPrimitiveNumeric = false → s.dtype ≠ .boolean → s.dtype ≠ .string →
      seriesToNumo s =
        .error (.compute ("to_numo not supported for dtype: " ++ dtypeDebug s.dtype)))
    ∧ (∀ av ∈ s.values, av = .nullAV →
        (elemToF64 av).getD F64.nan = F64.nan ∧ (elemToF32 av).getD F32.nan = F32.nan) := by
  obtain ⟨dt, vals⟩ := s
  refine ⟨?_, ?_, ?_, ?_, ?_, ?_, ?_⟩
  · intro h1 h2
    simp [seriesToNumo, seriesToNumoWithCopy, h1, h2]
  · intro h1 h2
    simp [seriesToNumo, seriesToNumoWithCopy, h1, h2]
  · intro hb hn
    subst hb
    simp [seriesToNumo, seriesToNumoWithCopy, booleanSeriesToNumo, hn,
      DType.isPrimitiveNumeric]
  · intro hb hn
    subst hb
    simp [seriesToNumo, seriesToNumoWithCopy, booleanSeriesToNumo, hn,
      DType.isPrimitiveNumeric]
  · intro hs
    subst hs
    simp [seriesToNumo, seriesToNumoWithCopy, DType.isPrimitiveNumeric]
  · intro h1 h2 h3
    cases dt <;> simp_all [seriesToNumo, seriesToNumoWithCopy, rbPolarsErrFrom,
      DType.isPrimitiveNumeric]
  · intro av hav hnull
    subst hnull
    exact ⟨rfl, rfl⟩

/-- C6 witness: an int64 column with one value and one null exports as a
64-bit float array with the null replaced by NaN. -/
theorem claim_C6_witness :
    seriesToNumo ⟨.int64, [.int64 3, .nullAV]⟩ = .ok (.dfloat [.ofInt 3, .nan]) := by
  have h := (claim_C6 ⟨.int64, [.int64 3, .nullAV]⟩ (by
    intro av hav
    rcases List.mem_cons.mp hav with h | h
    · left; rw [h]; rfl
    · right
      simpa using h)).1 (by rfl) (by rfl)
  rw [h]
  rfl

/-- Outbound conversion aborts exactly on a reachable bad object payload:
joint statement for one tagged value and for a list of them, proved by
strong induction on size. -/
theorem intoIffBad_all (n : Nat) :
    (∀ av : AnyValue, sizeOf av ≤ n → wellFormedAV av = true →
      ((intoValue av = none) ↔ hasBadObject av = true))
    ∧ (∀ vs : List AnyValue, sizeOf vs ≤ n → wellFormedList vs = true →
      ((intoList vs = none) ↔ hasBadObjectList vs = true)) := by
  induction n using Nat.strong_induction_on with
  | _ n ih =>
  constructor
  · intro av hsz hwf
    cases av with
    | uint8 k => simp [intoValue, hasBadObject]
    | uint16 k => simp [intoValue, hasBadObject]
    | uint32 k => simp [intoValue, hasBadObject]
    | uint64 k => simp [intoValue, hasBadObject]
    | int8 k => simp [intoValue, hasBadObject]
    | int16 k => simp [intoValue, hasBadObject]
    | int32 k => simp [intoValue, hasBadObject]
    | int64 k => simp [intoValue, hasBadObject]
    | float32 x => simp [intoValue, hasBadObject]
    | float64 x => simp [intoValue, hasBadObject]
    | nullAV => simp [intoValue, hasBadObject]
    | booleanAV b => simp [intoValue, hasBadObject]
    | strBorrowed bytes => simp [intoValue, hasBadObject]
    | strOwned bytes => simp [intoValue, hasBadObject]
    | categorical idx rev arr =>
        cases arr with
        | some a =>
            have hlt : idx < a.length := by simpa [wellFormedAV] using hwf
            simp [intoValue, hasBadObject, Option.map_eq_none', List.get?_eq_none]
            omega
        | none =>
            have hlt : idx < rev.length := by simpa [wellFormedAV] using hwf
            simp [intoValue, hasBadObject, Option.map_eq_none', List.get?_eq_none]
            omega
    | enumAV idx rev arr =>
        cases arr with
        | some a =>
            have hlt : idx < a.length := by simpa [wellFormedAV] using hwf
            simp [intoValue, hasBadObject, Option.map_eq_none', List.get?_eq_none]
            omega
        | none =>
            have hlt : idx < rev.length := by simpa [wellFormedAV] using hwf
            simp [intoValue, hasBadObject, Option.map_eq_none', List.get?_eq_none]
            omega
    | dateAV v => simp [intoValue, hasBadObject]
    | datetimeAV v u tz => simp [intoValue, hasBadObject]
    | durationAV v u => simp [intoValue, hasBadObject]
    | timeAV v => simp [intoValue, hasBadObject]
    | arrayAV d vs =>
        have hlt : sizeOf vs < sizeOf (AnyValue.arrayAV d vs) := by simp
        have hwf2 : wellFormedList vs = true := by simpa [wellFormedAV] using hwf
        have hiff := (ih (sizeOf vs) (by omega)).2 vs (le_refl _) hwf2
        simpa [intoValue, hasBadObject, Option.map_eq_none'] using hiff
    | listAV d vs =>
        have hlt : sizeOf vs < sizeOf (AnyValue.listAV d vs) := by simp
        have hwf2 : wellFormedList vs = true := by simpa [wellFormedAV] using hwf
        have hiff := (ih (sizeOf vs) (by omega)).2 vs (le_refl _) hwf2
        simpa [intoValue, hasBadObject, Option.map_eq_none'] using hiff
    | structAV vals flds =>
        have hlt : sizeOf vals < sizeOf (AnyValue.structAV vals flds) := by simp; omega
        have hwf2 : wellFormedList vals = true := by simpa [wellFormedAV] using hwf
        have hiff := (ih (sizeOf vals) (by omega)).2 vals (le_refl _) hwf2
        simpa [intoValue, structDict, hasBadObject, Option.map_eq_none'] using hiff
    | structOwned vals flds =>
        have hlt : sizeOf vals < sizeOf (AnyValue.structOwned vals flds) := by simp; omega
        have hwf2 : wellFormedList vals = true := by simpa [wellFormedAV] using hwf
        have hiff := (ih (sizeOf vals) (by omega)).2 vals (le_refl _) hwf2
        simpa [intoValue, structDict, hasBadObject, Option.map_eq_none'] using hiff
    | objectAV p => cases p <;> simp [intoValue, hasBadObject]
    | objectOwned p => cases p <;> simp [intoValue, hasBadObject]
    | binaryAV bytes => simp [intoValue, hasBadObject]
    | binaryOwned bytes => simp [intoValue, hasBadObject]
    | decimalAV v scale => simp [intoValue, hasBadObject]
  · intro vs hsz hwf
    cases vs with
    | nil => simp [intoList, hasBadObjectList]
    | cons a rest =>
        have hlt1 : sizeOf a < sizeOf (a :: rest) := by simp; omega
        have hlt2 : sizeOf rest < sizeOf (a :: rest) := by simp
        simp only [wellFormedList, Bool.and_eq_true] at hwf
        have iva := (ih (sizeOf a) (by omega)).1 a (le_refl _) hwf.1
        have ilr := (ih (sizeOf rest) (by omega)).2 rest (le_refl _) hwf.2
        rw [intoList, hasBadObjectList]
        cases hia : intoValue a with
        | none =>
            rw [hia] at iva
            simp [iva.mp rfl]
        | some r =>
            rw [hia] at iva
            have hnb : hasBadObject a = false := by
              cases hba : hasBadObject a
              · rfl
              · exact absurd (iva.mpr hba) (by simp)
            cases hil : intoList rest with
            | none =>
                rw [hil] at ilr
                simp [hnb, ilr.mp rfl]
            | some rs =>
                rw [hil] at ilr
                have hnl : hasBadObjectList rest = false := by
                  cases hbl : hasBadObjectList rest
                  · rfl
                  · exact absurd (ilr.mpr hbl) (by simp)
                simp [hnb, hnl]

/-- C8: for every well-formed tagged scalar value, outbound conversion
produces a host value, and the only permitted abort happens exactly when
the value contains an object variant whose payload is not the expected
ObjectValue box; the conversion raises no host exception at all (its
result type admits none). -/
theorem claim_C8 (av : AnyValue) (hwf : wellFormedAV av = true) :
    (intoValue av = none) ↔ hasBadObject av = true :=
  (intoIffBad_all (sizeOf av)).1 av (le_refl _) hwf

/-- C8 witness: a well-formed list of one int64 cell converts to a host
value, while an object value with a foreign payload aborts. -/
theorem claim_C8_witness :
    ((intoValue (.listAV .int64 [.int64 3]) = none) ↔
      hasBadObject (.listAV .int64 [.int64 3]) = true)
    ∧ ((intoValue (.objectOwned (.foreignBox 0)) = none) ↔
      hasBadObject (.objectOwned (.foreignBox 0)) = true) :=
  ⟨claim_C8 (.listAV .int64 [.int64 3]) (by rfl),
   claim_C8 (.objectOwned (.foreignBox 0)) (by rfl)⟩

/-- C3 counterexample: the claim lists opaque host objects among the
variants that round-trip through try_convert and into_value_with, but
inbound conversion matches opaque objects against no check and rejects
every one of them with the unsupported-type error, so no opaque object
round-trips through this pair of functions. -/
theorem claim_C3_counterexample :
    tryConvert (.hostObj 0) =
      .error (.generic ("object type not supported #<Object:0>")) := by
  rfl

/-- C3 (amended): every round-trippable host value (boolean, 64-bit
integer, float, nil, valid UTF-8 string, binary string, mapping with
valid UTF-8 string keys and round-trippable values, and sequence of
round-trippable elements whose converted form the supertype cast leaves
unchanged) converts inbound to a tagged value that outbound conversion
maps back to the original host value; opaque objects are excluded, since
inbound conversion rejects them. -/
theorem claim_C3 (v : RValue) (h : Roundtrippable v) :
    ∃ av, tryConvert v = .ok av ∧ intoValue av = some v := by
  induction h with
  | bool b => exact ⟨.booleanAV b, rfl, by rw [intoValue]⟩
  | int n hn =>
      refine ⟨.int64 n, ?_, by rw [intoValue]⟩
      rw [tryConvert, if_pos hn]
  | float x => exact ⟨.float64 x, rfl, by rw [intoValue]⟩
  | utf8Str bytes hb =>
      refine ⟨.strOwned bytes, ?_, by rw [intoValue]⟩
      rw [tryConvert]
      simp [hb]
  | binStr bytes => exact ⟨.binaryOwned bytes, rfl, by rw [intoValue]⟩
  | nilV => exact ⟨.nullAV, rfl, by rw [intoValue]⟩
  | hash entries hk hv ihv =>
      obtain ⟨flds, vals, h1, h2⟩ := roundtrip_hashEntries entries hk ihv
      refine ⟨.structOwned vals flds, ?_, ?_⟩
      · rw [tryConvert, h1, exceptBind_ok]
      · rw [intoValue]
        exact h2
  | array xs hx hc ihx =>
      by_cases hemp : xs = []
      · subst hemp
        refine ⟨.listAV .null [], rfl, ?_⟩
        rw [intoValue, intoList]
        rfl
      · obtain ⟨avs, h1, h2⟩ := roundtrip_list xs ihx
        obtain ⟨stn, hst, hcast⟩ := hc avs h1 hemp
        obtain ⟨ht, hd⟩ := tryConvertList_take_drop 25 xs avs h1
        have hser : seriesFromAnyValuesAndDtype (avs.take 25 ++ avs.drop 25) stn.1 =
            .ok avs := by
          rw [List.take_append_drop]
          exact seriesFrom_id avs stn.1 hcast
        refine ⟨.listAV stn.1 avs, ?_, ?_⟩
        · rw [tryConvert, if_neg (by simpa [List.isEmpty_iff] using hemp),
            tryConvertFirst_eq, tryConvertRest_eq, ht, exceptBind_ok, hst,
            exceptMapError_ok, exceptBind_ok, hd, exceptBind_ok, hser,
            exceptMapError_ok, exceptBind_ok]
        · rw [intoValue]
          simp [h2]

/-- C3 witness: the sequence holding the integer one and nil converts to
an int64 column and converts back to the original sequence. -/
theorem claim_C3_witness :
    ∃ av, tryConvert (.array [RValue.int 1, RValue.nil]) = .ok av ∧
      intoValue av = some (.array [RValue.int 1, RValue.nil]) := by
  refine claim_C3 (.array [RValue.int 1, RValue.nil]) ?_
  refine Roundtrippable.array _ ?_ ?_
  · intro x hx
    rcases List.mem_cons.mp hx with h | h
    · rw [h]
      exact Roundtrippable.int 1 (by decide)
    · rw [List.mem_singleton.mp h]
      exact Roundtrippable.nilV
  · intro avs havs hne
    have havs2 : avs = [.int64 1, .nullAV] := by
      have : tryConvertList [RValue.int 1, RValue.nil] =
          .ok [.int64 1, .nullAV] := by rfl
      rw [this] at havs
      exact (Except.ok.injEq _ _ ▸ havs.symm : _)
    subst havs2
    refine ⟨(.int64, 2), by rfl, ?_⟩
    intro av hav
    rcases List.mem_cons.mp hav with h | h
    · rw [h]
      rfl
    · rw [List.mem_singleton.mp h]
      rfl

end PolarsRb
